import Mathlib

/-!
Verification of the aggregation / classification / comparison core of
`PartB.py` (Intelligent Background Verification).

The program accumulates per-frame object detections into per-label
statistics, classifies the environment by first-match over an ordered
rule list, and diffs a declared manifest against the detected counts,
producing a report with a mismatch list and a risk flag.

Embedding conventions:
* Python floats are modelled as `ℚ`; `round(x, 2)` is modelled by `round2`.
* Python `dict`s (which preserve insertion order) are modelled as
  insertion-ordered association lists `List (String × _)`.
* The per-frame detection stream of one scenario is a `List (String × ℚ)`
  of (label, confidence) pairs, in frame order.
* Python exceptions are modelled with `Except`.
-/

namespace PartB

/-- Model of Python `round(x, 2)`: round to the nearest hundredth. -/
def round2 (q : ℚ) : ℚ := (round (100 * q) : ℤ) / 100

/-- Lookup in an insertion-ordered association list (Python `dict` access):
the value of the first entry whose key equals `l`, if any. -/
def findVal {β : Type} : List (String × β) → String → Option β
  | [], _ => none
  | (k, v) :: rest, l => if k = l then some v else findVal rest l

/-- `all_detected_items[item_name].append(confidence)` on a
`defaultdict(list)`: append `c` to the entry of `l`, creating the entry
(at the end, preserving insertion order) when absent. -/
def addConf : List (String × List ℚ) → String → ℚ → List (String × List ℚ)
  | [], l, c => [(l, [c])]
  | (k, v) :: rest, l, c =>
      if k = l then (k, v ++ [c]) :: rest else (k, v) :: addConf rest l c

/-- `all_detected_counts[item_name] += 1` on a `defaultdict(int)`:
increment the entry of `l`, creating it with value 1 when absent. -/
def addCount : List (String × Nat) → String → List (String × Nat)
  | [], l => [(l, 1)]
  | (k, n) :: rest, l =>
      if k = l then (k, n + 1) :: rest else (k, n) :: addCount rest l

/-- The accumulated `all_detected_items` map after processing the whole
detection stream of one scenario. -/
def all_detected_items (dets : List (String × ℚ)) : List (String × List ℚ) :=
  dets.foldl (fun m d => addConf m d.1 d.2) []

/-- The accumulated `all_detected_counts` map after processing the whole
detection stream of one scenario. -/
def all_detected_counts (dets : List (String × ℚ)) : List (String × Nat) :=
  dets.foldl (fun m d => addCount m d.1) []

/-- The fixed, ordered environment rule list `env_rules` of
`analyze_video_background` (dict literal, insertion order Home, Office,
Shop). -/
def env_rules : List (String × List String) :=
  [("Home", ["bed", "sofa", "tv", "refrigerator", "microwave", "chair",
             "dining table"]),
   ("Office", ["desk", "computer", "whiteboard", "chair", "meeting table"]),
   ("Shop", ["shelf", "counter", "bottled products", "packaged boxes",
             "refrigerator"])]

/-- The classification loop `for env, items in env_rules.items(): ...`:
for the first rule whose characteristic items intersect the keys of
`counts`, return its name and the weighted mean confidence of the
intersecting items; `("Uncategorized", 0)` when no rule matches.  The
confidence stays at its initial `0.0` when the total count is zero. -/
def classifyEnv (rules : List (String × List String))
    (items : List (String × List ℚ)) (counts : List (String × Nat)) :
    String × ℚ :=
  match rules with
  | [] => ("Uncategorized", 0)
  | (env, ruleItems) :: rest =>
      let common := ruleItems.filter (fun it => (findVal counts it).isSome)
      if common.isEmpty then classifyEnv rest items counts
      else
        let totalConfidence :=
          (common.map (fun it => ((findVal items it).getD []).sum)).sum
        let totalCount := (common.map (fun it => (findVal counts it).getD 0)).sum
        (env, if 0 < totalCount then
                round2 (totalConfidence / (totalCount : ℚ))
              else 0)

/-- Model of Python `str.lower()`: lowercase every character. -/
def strLower (s : String) : String := String.mk (s.data.map Char.toLower)

/-- Model of Python `str.title()`: an alphabetic character is uppercased
when the previous character is not alphabetic and lowercased otherwise. -/
def titleCase (s : String) : String :=
  String.mk ((s.data.foldl
    (fun (acc : List Char × Bool) c =>
      if c.isAlpha then
        ((if acc.2 then c.toLower else c.toUpper) :: acc.1, true)
      else (c :: acc.1, false)) ([], false)).1.reverse)

/-- A single-quote character, used verbatim inside the mismatch strings. -/
def sq : String := String.singleton (Char.ofNat 39)

/-- The f-string
`f"Declared environment lq{declared_env}rq does not match detected environment lq{detected_environment}rq"`
(with `lq`/`rq` the single quotes). -/
def envMismatchStr (declaredEnv detectedEnv : String) : String :=
  "Declared environment " ++ sq ++ declaredEnv ++ sq ++
    " does not match detected environment " ++ sq ++ detectedEnv ++ sq

/-- The f-string
`f"Declared lq{asset}: {declared_count}rq but detected lq{asset}: {detected_count}rq"`. -/
def assetMismatchStr (asset : String) (declaredCount : Int)
    (detectedCount : Nat) : String :=
  "Declared " ++ sq ++ asset ++ ": " ++ toString declaredCount ++ sq ++
    " but detected " ++ sq ++ asset ++ ": " ++ toString detectedCount ++ sq

/-- The declared manifest: `declared_data.get("environment")` (absent key
modelled by `none`) and `declared_data.get("assets", {})` as an ordered
association list of declared counts. -/
structure DeclaredData where
  environment : Option String
  assets : List (String × Int)
  deriving DecidableEq, Repr

/-- One row of `analysis_results.detected_objects`. -/
structure ObjRow where
  item : String
  count : Nat
  avg_confidence : ℚ
  deriving DecidableEq, Repr

/-- The report returned by `analyze_video_background`. -/
structure Report where
  declared_data : DeclaredData
  detected_environment : String
  environment_confidence : ℚ
  detected_objects : List ObjRow
  mismatch_highlight : List String
  risk_flag : String
  deriving DecidableEq, Repr

/-- Mismatch 1 (environment type): the initial mismatch list and risk
flag after `if declared_env and declared_env.lower() != detected_environment.lower()`.
A missing key or empty string is falsy, so produces no mismatch. -/
def envCheck (detectedEnv : String) (dd : DeclaredData) :
    List String × String :=
  match dd.environment with
  | none => ([], "Pass")
  | some e =>
      if e = "" then ([], "Pass")
      else if strLower e = strLower detectedEnv then ([], "Pass")
      else ([envMismatchStr e detectedEnv], "Review Required")

/-- Mismatch 2 (asset counts): the loop
`for asset, declared_count in declared_assets.items(): ...`, run after the
environment check, threading the mismatch list and risk flag. -/
def detectCompare (detectedEnv : String) (counts : List (String × Nat))
    (dd : DeclaredData) : List String × String :=
  dd.assets.foldl
    (fun acc p =>
      let detected_count := (findVal counts p.1).getD 0
      if p.2 ≠ (detected_count : Int) then
        (acc.1 ++ [assetMismatchStr p.1 p.2 detected_count],
         "Review Required")
      else acc)
    (envCheck detectedEnv dd)

/-- `analyze_video_background`, given the accumulated detection stream of
the scenario (each element one detected box, in frame order) and the
declared manifest. -/
def analyze_video_background (dets : List (String × ℚ))
    (declared_data : DeclaredData) : Report :=
  let items := all_detected_items dets
  let counts := all_detected_counts dets
  let envConf := classifyEnv env_rules items counts
  let cmp := detectCompare envConf.1 counts declared_data
  { declared_data := declared_data
    detected_environment := envConf.1
    environment_confidence := envConf.2
    detected_objects := items.map (fun p =>
      { item := titleCase p.1
        count := (findVal counts p.1).getD 0
        avg_confidence := round2 (p.2.sum / (p.2.length : ℚ)) })
    mismatch_highlight := cmp.1
    risk_flag := cmp.2 }

/-! Statement vocabulary: these definitions restate pieces of the loops
above (the rule-match test, the intersecting items, the confidence of one
rule, the asset-mismatch sublist) so the theorems below can name them. -/

/-- A rule matches when its characteristic-item list intersects the keys
of the accumulated count map (`common_items` non-empty). -/
def ruleMatches (counts : List (String × Nat)) (r : String × List String) :
    Bool :=
  r.2.any (fun it => (findVal counts it).isSome)

/-- `common_items`: the characteristic items of the rule that are keys of
the accumulated count map, in rule order. -/
def commonItems (counts : List (String × Nat)) (r : String × List String) :
    List String :=
  r.2.filter (fun it => (findVal counts it).isSome)

/-- The confidence the classification loop computes for one matching rule:
sum of all recorded confidences of the intersecting items over the sum of
their counts, rounded to 2 decimals (0 when the total count is zero). -/
def ruleConfidence (items : List (String × List ℚ))
    (counts : List (String × Nat)) (r : String × List String) : ℚ :=
  if 0 < ((commonItems counts r).map (fun it => (findVal counts it).getD 0)).sum
  then
    round2 (((commonItems counts r).map
        (fun it => ((findVal items it).getD []).sum)).sum /
      ((((commonItems counts r).map
          (fun it => (findVal counts it).getD 0)).sum : Nat) : ℚ))
  else 0

/-- The mismatch strings produced by the asset-count loop, in manifest
order: one string per asset whose declared count differs from the detected
count (0 when the label was never detected). -/
def assetMismatchList (counts : List (String × Nat))
    (assets : List (String × Int)) : List String :=
  assets.filterMap (fun p =>
    if p.2 ≠ (((findVal counts p.1).getD 0 : Nat) : Int) then
      some (assetMismatchStr p.1 p.2 ((findVal counts p.1).getD 0))
    else none)

/-! Model of the per-frame loop of `analyze_video_background`.  Each frame
either fails during `requests.get` / `raise_for_status` (raising a
`RequestException`, which the frame-level `except` clause catches), fails
inside `model.predict` (raising an exception that is NOT a
`RequestException`, hence not caught by the frame-level handler), or
yields a list of (label, confidence) detections. -/

/-- Outcome of processing one frame. -/
inductive FrameOutcome where
  /-- `requests.get` or `raise_for_status` raised `RequestException`. -/
  | fetchError
  /-- `model.predict` raised an exception (not a `RequestException`). -/
  | predictError
  /-- The frame's boxes, mapped to (label, confidence). -/
  | frameDetections (ds : List (String × ℚ))
  deriving DecidableEq, Repr

/-- The frame loop: a `fetchError` is caught (`continue`), a
`predictError` escapes the loop (modelled as `Except.error ()`), and
detections accumulate in frame order. -/
def processFrames : List FrameOutcome → Except Unit (List (String × ℚ))
  | [] => Except.ok []
  | FrameOutcome.fetchError :: rest => processFrames rest
  | FrameOutcome.predictError :: _ => Except.error ()
  | FrameOutcome.frameDetections ds :: rest =>
      (processFrames rest).map (fun acc => ds ++ acc)

/-! Model of `fetch_image_urls_from_unsplash`.  The HTTP response and the
JSON body are explicit inputs; Python dynamic typing of the body is
modelled by a small JSON value type, and the exceptions that body access
can raise (`KeyError`, `TypeError`) are modelled explicitly — they are not
`RequestException`s, so the function's `except` clause does not catch
them. -/

/-- A JSON value, as produced by `response.json()`. -/
inductive JVal where
  | jnull
  | jbool (b : Bool)
  | jnum (q : ℚ)
  | jstr (s : String)
  | jarr (xs : List JVal)
  | jobj (fields : List (String × JVal))

/-- Exceptions arising from subscripting a decoded JSON value; neither is
a `requests.exceptions.RequestException`. -/
inductive PyExc where
  | keyError
  | typeError
  deriving DecidableEq, Repr

/-- Python `v[k]` for a string key `k`: a dict lookup (`KeyError` when the
key is absent), a `TypeError` on any non-dict value. -/
def jIndex : JVal → String → Except PyExc JVal
  | JVal.jobj fields, k =>
      match findVal fields k with
      | some v => Except.ok v
      | none => Except.error PyExc.keyError
  | _, _ => Except.error PyExc.typeError

/-- Python `for result in v`: iterating a list yields its elements, a dict
its keys, a string its characters; other values are not iterable. -/
def jIter : JVal → Except PyExc (List JVal)
  | JVal.jarr xs => Except.ok xs
  | JVal.jobj fields => Except.ok (fields.map (fun f => JVal.jstr f.1))
  | JVal.jstr s =>
      Except.ok (s.data.map (fun c => JVal.jstr (String.singleton c)))
  | _ => Except.error PyExc.typeError

/-- The comprehension body: `result['urls']['regular']` for each result,
raising at the first failing element. -/
def extractRegular : List JVal → Except PyExc (List JVal)
  | [] => Except.ok []
  | r :: rest => do
      let urls ← jIndex r "urls"
      let u ← jIndex urls "regular"
      let us ← extractRegular rest
      pure (u :: us)

/-- `[result['urls']['regular'] for result in data['results']]`. -/
def extractUrls (data : JVal) : Except PyExc (List JVal) := do
  let results ← jIndex data "results"
  let rs ← jIter results
  extractRegular rs

/-- The decoded state of the response body: either `response.json()`
raises (`JSONDecodeError`, a `RequestException` subclass in the
`requests` versions this code targets), or it yields a JSON value. -/
inductive BodyContent where
  | invalidJson
  | json (v : JVal)

/-- The observable outcome of `requests.get` for the search call: either
the request itself raised a `RequestException` (connection error,
timeout), or a response with a status code and a body arrived. -/
inductive HttpResponse where
  | failure
  | response (status : Nat) (body : BodyContent)

/-- `fetch_image_urls_from_unsplash`, with the access key and the HTTP
outcome as explicit inputs.  The placeholder key returns early with `[]`.
`raise_for_status` raises `HTTPError` (a `RequestException`) exactly for
4xx/5xx statuses; the `except requests.exceptions.RequestException`
clause turns any such exception — as well as a transport failure or a
JSON decode failure — into `return []`.  `KeyError` / `TypeError` from the
comprehension are not caught and escape. -/
def fetch_image_urls_from_unsplash (access_key : String)
    (resp : HttpResponse) : Except PyExc (List JVal) :=
  if access_key = "YOUR_UNSPLASH_ACCESS_KEY" then Except.ok []
  else
    match resp with
    | HttpResponse.failure => Except.ok []
    | HttpResponse.response status body =>
        if 400 ≤ status ∧ status < 600 then Except.ok []
        else
          match body with
          | BodyContent.invalidJson => Except.ok []
          | BodyContent.json v =>
              match extractUrls v with
              | Except.ok urls => Except.ok urls
              | Except.error e => Except.error e

/-! ### Invariants of the accumulation maps -/

theorem findVal_map {β γ : Type} (f : β → γ) (m : List (String × β))
    (l : String) :
    findVal (m.map (fun p => (p.1, f p.2))) l = (findVal m l).map f := by
  induction m with
  | nil => rfl
  | cons hd tl ih =>
      obtain ⟨k, v⟩ := hd
      by_cases h : k = l <;> simp [findVal, h, ih]

theorem addCount_map (m : List (String × List ℚ)) (l : String) (c : ℚ) :
    addCount (m.map (fun p => (p.1, p.2.length))) l
      = (addConf m l c).map (fun p => (p.1, p.2.length)) := by
  induction m with
  | nil => rfl
  | cons hd tl ih =>
      obtain ⟨k, v⟩ := hd
      by_cases h : k = l <;> simp [addCount, addConf, h, ih]

/-- The two accumulation maps are kept in lockstep: the count of a label
is the length of its confidence list. -/
theorem all_detected_counts_eq (dets : List (String × ℚ)) :
    all_detected_counts dets
      = (all_detected_items dets).map (fun p => (p.1, p.2.length)) := by
  have h : ∀ m : List (String × List ℚ),
      dets.foldl (fun m d => addCount m d.1)
          (m.map (fun p => (p.1, p.2.length)))
        = (dets.foldl (fun m d => addConf m d.1 d.2) m).map
            (fun p => (p.1, p.2.length)) := by
    induction dets with
    | nil => intro m; rfl
    | cons d rest ih =>
        intro m
        rw [List.foldl_cons, List.foldl_cons, addCount_map m d.1 d.2]
        exact ih (addConf m d.1 d.2)
  simpa [all_detected_counts, all_detected_items] using h []

theorem addConf_vals_ne_nil (m : List (String × List ℚ)) (l : String)
    (c : ℚ) (hm : ∀ p ∈ m, p.2 ≠ []) : ∀ p ∈ addConf m l c, p.2 ≠ [] := by
  induction m with
  | nil =>
      intro p hp
      simp [addConf] at hp
      simp [hp]
  | cons hd tl ih =>
      obtain ⟨k, v⟩ := hd
      intro p hp
      rw [addConf] at hp
      by_cases h : k = l
      · rw [if_pos h] at hp
        rcases List.mem_cons.mp hp with h1 | h2
        · subst h1; simp
        · exact hm p (List.mem_cons_of_mem _ h2)
      · rw [if_neg h] at hp
        rcases List.mem_cons.mp hp with h1 | h2
        · subst h1; exact hm (k, v) (List.mem_cons_self _ _)
        · exact ih (fun q hq => hm q (List.mem_cons_of_mem _ hq)) p h2

/-- Every accumulated confidence list is non-empty. -/
theorem all_detected_items_vals_ne_nil (dets : List (String × ℚ)) :
    ∀ p ∈ all_detected_items dets, p.2 ≠ [] := by
  have h : ∀ m : List (String × List ℚ), (∀ p ∈ m, p.2 ≠ []) →
      ∀ p ∈ dets.foldl (fun m d => addConf m d.1 d.2) m, p.2 ≠ [] := by
    induction dets with
    | nil => intro m hm; exact hm
    | cons d rest ih =>
        intro m hm
        rw [List.foldl_cons]
        exact ih _ (addConf_vals_ne_nil m d.1 d.2 hm)
  exact h [] (by simp)

theorem findVal_eq_none_iff {β : Type} (m : List (String × β)) (l : String) :
    findVal m l = none ↔ l ∉ m.map Prod.fst := by
  induction m with
  | nil => simp [findVal]
  | cons hd tl ih =>
      obtain ⟨k, v⟩ := hd
      by_cases h : k = l <;> simp [findVal, h, ih]
      intro h1
      exact fun h2 => h (h2.symm)

theorem addConf_keys (m : List (String × List ℚ)) (l : String) (c : ℚ) :
    (addConf m l c).map Prod.fst
      = if (findVal m l).isSome then m.map Prod.fst
        else m.map Prod.fst ++ [l] := by
  induction m with
  | nil => simp [addConf, findVal]
  | cons hd tl ih =>
      obtain ⟨k, v⟩ := hd
      by_cases h : k = l
      · simp [addConf, findVal, h]
      · simp only [addConf, if_neg h, List.map_cons, findVal, ih]
        by_cases hs : (findVal tl l).isSome <;> simp [hs]

/-- The keys of the accumulated items map are distinct. -/
theorem all_detected_items_keys_nodup (dets : List (String × ℚ)) :
    ((all_detected_items dets).map Prod.fst).Nodup := by
  have h : ∀ m : List (String × List ℚ), (m.map Prod.fst).Nodup →
      ((dets.foldl (fun m d => addConf m d.1 d.2) m).map Prod.fst).Nodup := by
    induction dets with
    | nil => intro m hm; exact hm
    | cons d rest ih =>
        intro m hm
        rw [List.foldl_cons]
        refine ih _ ?_
        rw [addConf_keys]
        cases hs : (findVal m d.1).isSome
        · rw [if_neg (by simp [hs])]
          have : findVal m d.1 = none := by
            cases hv : findVal m d.1
            · rfl
            · rw [hv] at hs; simp at hs
          simpa [List.nodup_append, hm] using (findVal_eq_none_iff m d.1).mp this
        · simpa [hs] using hm
  exact h [] (by simp)

theorem findVal_of_mem {β : Type} {m : List (String × β)}
    (hnd : (m.map Prod.fst).Nodup) {l : String} {v : β}
    (h : (l, v) ∈ m) : findVal m l = some v := by
  induction m with
  | nil => simp at h
  | cons hd tl ih =>
      obtain ⟨k, w⟩ := hd
      rcases List.mem_cons.mp h with h1 | h2
      · obtain ⟨hk, hv⟩ := Prod.mk.injEq .. ▸ h1
        simp_all [findVal]
      · have hk : k ≠ l := by
          rintro rfl
          have : k ∈ tl.map Prod.fst :=
            List.mem_map.mpr ⟨(k, v), h2, rfl⟩
          simp [List.nodup_cons, this] at hnd
        rw [findVal, if_neg hk]
        exact ih (List.nodup_cons.mp (by simpa using hnd)).2 h2

/-! ### The classification loop as a first-match lookup -/

theorem filter_isEmpty_eq_not_any {α : Type} (p : α → Bool) (l : List α) :
    (l.filter p).isEmpty = !l.any p := by
  induction l with
  | nil => rfl
  | cons h t ih =>
      rw [List.filter, List.any]
      cases hp : p h
      · simpa using ih
      · rfl

theorem find?_eq_filter_head? {α : Type} (p : α → Bool) (l : List α) :
    l.find? p = (l.filter p).head? := by
  induction l with
  | nil => rfl
  | cons h t ih =>
      rw [List.find?, List.filter]
      cases hp : p h
      · simpa using ih
      · rfl

/-- The classification loop returns the first matching rule's name paired
with that rule's confidence, and `("Uncategorized", 0)` when no rule
matches. -/
theorem classifyEnv_eq_find? (rules : List (String × List String))
    (items : List (String × List ℚ)) (counts : List (String × Nat)) :
    classifyEnv rules items counts
      = ((rules.find? (ruleMatches counts)).map
          (fun r => (r.1, ruleConfidence items counts r))).getD
            ("Uncategorized", 0) := by
  induction rules with
  | nil => rfl
  | cons r rest ih =>
      obtain ⟨env, ruleItems⟩ := r
      rw [classifyEnv, List.find?]
      cases hm : ruleMatches counts (env, ruleItems)
      · have hm' : (ruleItems.any fun it => (findVal counts it).isSome) = false := hm
        simp only [filter_isEmpty_eq_not_any, hm']
        simpa using ih
      · have hm' : (ruleItems.any fun it => (findVal counts it).isSome) = true := hm
        simp only [filter_isEmpty_eq_not_any, hm']
        simp [ruleConfidence, commonItems]

theorem findVal_mem {β : Type} : ∀ {m : List (String × β)} {l : String}
    {v : β}, findVal m l = some v → (l, v) ∈ m := by
  intro m
  induction m with
  | nil => intro l v h; simp [findVal] at h
  | cons hd tl ih =>
      obtain ⟨k, w⟩ := hd
      intro l v h
      rw [findVal] at h
      by_cases hk : k = l
      · rw [if_pos hk] at h
        cases h
        subst hk
        exact List.mem_cons_self _ _
      · rw [if_neg hk] at h
        exact List.mem_cons_of_mem _ (ih h)

theorem findVal_counts (dets : List (String × ℚ)) (it : String) :
    findVal (all_detected_counts dets) it
      = (findVal (all_detected_items dets) it).map List.length := by
  rw [all_detected_counts_eq]
  exact findVal_map List.length (all_detected_items dets) it

/-- Every label that is a key of the count map has count at least 1. -/
theorem count_pos (dets : List (String × ℚ)) (it : String)
    (h : (findVal (all_detected_counts dets) it).isSome = true) :
    0 < (findVal (all_detected_counts dets) it).getD 0 := by
  rw [findVal_counts] at h ⊢
  cases hv : findVal (all_detected_items dets) it with
  | none => simp [hv] at h
  | some lst =>
      have hne : lst ≠ [] :=
        all_detected_items_vals_ne_nil dets (it, lst) (findVal_mem hv)
      simpa [List.length_pos] using hne

/-! ### The comparison loop -/

theorem envCheck_spec (d : String) (dd : DeclaredData) :
    envCheck d dd = ([], "Pass")
    ∨ ∃ e, dd.environment = some e
        ∧ envCheck d dd = ([envMismatchStr e d], "Review Required") := by
  cases he : dd.environment with
  | none => exact Or.inl (by simp [envCheck, he])
  | some e =>
      by_cases h1 : e = ""
      · exact Or.inl (by simp [envCheck, he, h1])
      · by_cases h2 : strLower e = strLower d
        · exact Or.inl (by simp [envCheck, he, h1, h2])
        · exact Or.inr ⟨e, rfl, by simp [envCheck, he, h1, h2]⟩

theorem assetMismatchList_cons (counts : List (String × Nat))
    (asset : String) (dc : Int) (rest : List (String × Int)) :
    assetMismatchList counts ((asset, dc) :: rest)
      = (if dc ≠ (((findVal counts asset).getD 0 : Nat) : Int)
         then [assetMismatchStr asset dc ((findVal counts asset).getD 0)]
         else [])
        ++ assetMismatchList counts rest := by
  by_cases h : dc ≠ (((findVal counts asset).getD 0 : Nat) : Int)
  · simp only [assetMismatchList, List.filterMap_cons, if_pos h]
    rfl
  · simp only [assetMismatchList, List.filterMap_cons, if_neg h]
    rfl

theorem foldl_assets (counts : List (String × Nat))
    (assets : List (String × Int)) (ms : List String) (rf : String) :
    assets.foldl
      (fun acc p =>
        if p.2 ≠ (((findVal counts p.1).getD 0 : Nat) : Int) then
          (acc.1 ++ [assetMismatchStr p.1 p.2 ((findVal counts p.1).getD 0)],
           "Review Required")
        else acc)
      (ms, rf)
      = (ms ++ assetMismatchList counts assets,
         if assetMismatchList counts assets = [] then rf
         else "Review Required") := by
  induction assets generalizing ms rf with
  | nil => simp [assetMismatchList]
  | cons a rest ih =>
      obtain ⟨asset, dc⟩ := a
      rw [List.foldl_cons, assetMismatchList_cons]
      by_cases h : dc ≠ (((findVal counts asset).getD 0 : Nat) : Int)
      · simp only [if_pos h]
        rw [ih]
        simp [List.append_assoc]
      · simp only [if_neg h]
        rw [ih]
        simp

theorem detectCompare_eq (detectedEnv : String)
    (counts : List (String × Nat)) (dd : DeclaredData) :
    detectCompare detectedEnv counts dd
      = ((envCheck detectedEnv dd).1 ++ assetMismatchList counts dd.assets,
         if assetMismatchList counts dd.assets = []
         then (envCheck detectedEnv dd).2 else "Review Required") := by
  rw [detectCompare,
    show envCheck detectedEnv dd
      = ((envCheck detectedEnv dd).1, (envCheck detectedEnv dd).2) from rfl]
  exact foldl_assets counts dd.assets _ _

/-! ### Projections of the report -/

theorem analyze_detected_environment (dets : List (String × ℚ))
    (dd : DeclaredData) :
    (analyze_video_background dets dd).detected_environment
      = (classifyEnv env_rules (all_detected_items dets)
          (all_detected_counts dets)).1 := rfl

theorem analyze_environment_confidence (dets : List (String × ℚ))
    (dd : DeclaredData) :
    (analyze_video_background dets dd).environment_confidence
      = (classifyEnv env_rules (all_detected_items dets)
          (all_detected_counts dets)).2 := rfl

theorem analyze_mismatch_highlight (dets : List (String × ℚ))
    (dd : DeclaredData) :
    (analyze_video_background dets dd).mismatch_highlight
      = (envCheck (analyze_video_background dets dd).detected_environment
          dd).1
        ++ assetMismatchList (all_detected_counts dets) dd.assets := by
  have : (analyze_video_background dets dd).mismatch_highlight
      = (detectCompare (analyze_video_background dets dd).detected_environment
          (all_detected_counts dets) dd).1 := rfl
  rw [this, detectCompare_eq]

theorem analyze_risk_flag (dets : List (String × ℚ)) (dd : DeclaredData) :
    (analyze_video_background dets dd).risk_flag
      = (if assetMismatchList (all_detected_counts dets) dd.assets = []
         then (envCheck
            (analyze_video_background dets dd).detected_environment dd).2
         else "Review Required") := by
  have : (analyze_video_background dets dd).risk_flag
      = (detectCompare (analyze_video_background dets dd).detected_environment
          (all_detected_counts dets) dd).2 := rfl
  rw [this, detectCompare_eq]

/-! ### Claim theorems -/

/-- C1: for every detection stream, the environment the report selects is
the first rule of `env_rules` (in declaration order) whose
characteristic-label set intersects the detected labels, and any rule
list whose matching rules agree with those of `env_rules` — in
particular any reordering of the rules that do not intersect the
detected labels — classifies to the same environment with the same
confidence. -/
theorem first_match_selection_and_reorder_invariance
    (dets : List (String × ℚ)) (dd : DeclaredData)
    (rules2 : List (String × List String))
    (h : rules2.filter (ruleMatches (all_detected_counts dets))
         = env_rules.filter (ruleMatches (all_detected_counts dets))) :
    (analyze_video_background dets dd).detected_environment
      = ((env_rules.find? (ruleMatches (all_detected_counts dets))).map
          Prod.fst).getD "Uncategorized"
    ∧ classifyEnv rules2 (all_detected_items dets) (all_detected_counts dets)
      = classifyEnv env_rules (all_detected_items dets)
          (all_detected_counts dets) := by
  constructor
  · rw [analyze_detected_environment, classifyEnv_eq_find?]
    cases env_rules.find? (ruleMatches (all_detected_counts dets)) <;> rfl
  · rw [classifyEnv_eq_find?, classifyEnv_eq_find?,
      find?_eq_filter_head?, find?_eq_filter_head?, h]

/-- A reordering of `env_rules` that swaps the two rules not matching a
stream that detects only a sofa. -/
def reorderedRules : List (String × List String) :=
  [("Home", ["bed", "sofa", "tv", "refrigerator", "microwave", "chair",
             "dining table"]),
   ("Shop", ["shelf", "counter", "bottled products", "packaged boxes",
             "refrigerator"]),
   ("Office", ["desk", "computer", "whiteboard", "chair", "meeting table"])]

/-- C1 witness: instantiation at a stream detecting one sofa, with the
non-matching Office and Shop rules swapped. -/
theorem first_match_selection_and_reorder_invariance_witness :
    (reorderedRules.filter (ruleMatches (all_detected_counts [("sofa", 9/10)]))
      = env_rules.filter (ruleMatches (all_detected_counts [("sofa", 9/10)])))
    ∧ ((analyze_video_background [("sofa", 9/10)]
          ⟨none, []⟩).detected_environment
        = ((env_rules.find?
            (ruleMatches (all_detected_counts [("sofa", 9/10)]))).map
              Prod.fst).getD "Uncategorized"
       ∧ classifyEnv reorderedRules (all_detected_items [("sofa", 9/10)])
            (all_detected_counts [("sofa", 9/10)])
          = classifyEnv env_rules (all_detected_items [("sofa", 9/10)])
              (all_detected_counts [("sofa", 9/10)])) :=
  ⟨by decide,
   first_match_selection_and_reorder_invariance [("sofa", 9/10)] ⟨none, []⟩
     reorderedRules (by decide)⟩

/-- C2: whenever some rule's label set intersects the detected labels,
the reported environment confidence equals the sum of all recorded
confidences of the intersecting labels of the selected (first-matching)
rule, divided by the sum of those labels' counts, rounded to 2
decimals. -/
theorem environment_confidence_weighted_mean
    (dets : List (String × ℚ)) (dd : DeclaredData)
    (r : String × List String)
    (h : env_rules.find? (ruleMatches (all_detected_counts dets)) = some r) :
    (analyze_video_background dets dd).environment_confidence
      = round2 ((((commonItems (all_detected_counts dets) r).map
            (fun it => ((findVal (all_detected_items dets) it).getD
              []).sum)).sum)
          / (((((commonItems (all_detected_counts dets) r).map
            (fun it => (findVal (all_detected_counts dets) it).getD
              0)).sum : Nat)) : ℚ)) := by
  have hmatch : ruleMatches (all_detected_counts dets) r = true :=
    List.find?_some h
  have hpos : 0 < ((commonItems (all_detected_counts dets) r).map
      (fun it => (findVal (all_detected_counts dets) it).getD 0)).sum := by
    rw [ruleMatches] at hmatch
    obtain ⟨it, hit, hsome⟩ := List.any_eq_true.mp hmatch
    have hcommon : it ∈ commonItems (all_detected_counts dets) r :=
      List.mem_filter.mpr ⟨hit, hsome⟩
    have hone := count_pos dets it hsome
    have hmem : (findVal (all_detected_counts dets) it).getD 0
        ∈ (commonItems (all_detected_counts dets) r).map
            (fun it => (findVal (all_detected_counts dets) it).getD 0) :=
      List.mem_map_of_mem _ hcommon
    by_contra hle
    have hz : ((commonItems (all_detected_counts dets) r).map
        (fun it => (findVal (all_detected_counts dets) it).getD 0)).sum
        = 0 := by omega
    have := List.sum_eq_zero_iff.mp hz _ hmem
    omega
  rw [analyze_environment_confidence, classifyEnv_eq_find?, h]
  show ruleConfidence (all_detected_items dets) (all_detected_counts dets) r
      = _
  rw [ruleConfidence, if_pos hpos]

/-- C2 witness: a stream detecting one sofa at 0.9 and one chair at 0.6
matches the Home rule; its confidence is the stated weighted mean. -/
theorem environment_confidence_weighted_mean_witness :
    (env_rules.find?
        (ruleMatches (all_detected_counts [("sofa", 9/10), ("chair", 3/5)]))
      = some ("Home", ["bed", "sofa", "tv", "refrigerator", "microwave",
                       "chair", "dining table"]))
    ∧ (analyze_video_background [("sofa", 9/10), ("chair", 3/5)]
        ⟨none, []⟩).environment_confidence
      = round2 ((((commonItems
            (all_detected_counts [("sofa", 9/10), ("chair", 3/5)])
            ("Home", ["bed", "sofa", "tv", "refrigerator", "microwave",
                      "chair", "dining table"])).map
            (fun it => ((findVal
              (all_detected_items [("sofa", 9/10), ("chair", 3/5)])
              it).getD []).sum)).sum)
          / (((((commonItems
            (all_detected_counts [("sofa", 9/10), ("chair", 3/5)])
            ("Home", ["bed", "sofa", "tv", "refrigerator", "microwave",
                      "chair", "dining table"])).map
            (fun it => (findVal
              (all_detected_counts [("sofa", 9/10), ("chair", 3/5)])
              it).getD 0)).sum : Nat)) : ℚ)) :=
  ⟨by decide,
   environment_confidence_weighted_mean [("sofa", 9/10), ("chair", 3/5)]
     ⟨none, []⟩
     ("Home", ["bed", "sofa", "tv", "refrigerator", "microwave", "chair",
               "dining table"])
     (by decide)⟩

/-- C3: every row of `detected_objects` is the row of some accumulated
label: its count is at least 1 and equals the number of recorded
confidences of that label, and its average confidence is the mean of
those recorded confidences rounded to 2 decimals. -/
theorem detected_objects_rows (dets : List (String × ℚ))
    (dd : DeclaredData) (row : ObjRow)
    (hrow : row ∈ (analyze_video_background dets dd).detected_objects) :
    1 ≤ row.count
    ∧ ∃ l confs, (l, confs) ∈ all_detected_items dets
        ∧ row.item = titleCase l
        ∧ row.count = confs.length
        ∧ row.avg_confidence = round2 (confs.sum / (confs.length : ℚ)) := by
  have hobj : (analyze_video_background dets dd).detected_objects
      = (all_detected_items dets).map (fun p =>
          { item := titleCase p.1
            count := (findVal (all_detected_counts dets) p.1).getD 0
            avg_confidence := round2 (p.2.sum / (p.2.length : ℚ)) }) := rfl
  rw [hobj] at hrow
  obtain ⟨p, hp, hrow⟩ := List.mem_map.mp hrow
  obtain ⟨l, confs⟩ := p
  have hfv : findVal (all_detected_items dets) l = some confs :=
    findVal_of_mem (all_detected_items_keys_nodup dets) hp
  have hcount : (findVal (all_detected_counts dets) l).getD 0
      = confs.length := by
    rw [findVal_counts, hfv]
    rfl
  have hne : confs ≠ [] := all_detected_items_vals_ne_nil dets (l, confs) hp
  subst hrow
  exact ⟨by simpa [hcount] using List.length_pos.mpr hne,
    l, confs, hp, rfl, hcount, rfl⟩

/-- C3 witness: a label detected exactly once at confidence 0.9 is
reported with count 1 and average confidence 0.9. -/
theorem detected_objects_rows_witness :
    (ObjRow.mk "Sofa" 1 (9/10)
      ∈ (analyze_video_background [("sofa", 9/10)]
          ⟨none, []⟩).detected_objects)
    ∧ (1 ≤ (ObjRow.mk "Sofa" 1 (9/10)).count
       ∧ ∃ l confs, (l, confs) ∈ all_detected_items [("sofa", 9/10)]
          ∧ (ObjRow.mk "Sofa" 1 (9/10)).item = titleCase l
          ∧ (ObjRow.mk "Sofa" 1 (9/10)).count = confs.length
          ∧ (ObjRow.mk "Sofa" 1 (9/10)).avg_confidence
              = round2 (confs.sum / (confs.length : ℚ))) :=
  have h2 : round2 (List.sum [(9/10 : ℚ)]
      / ((List.length [(9/10 : ℚ)] : Nat) : ℚ)) = 9/10 := by
    norm_num [round2]
  have hmem : ObjRow.mk "Sofa" 1 (9/10)
      ∈ (analyze_video_background [("sofa", 9/10)]
          ⟨none, []⟩).detected_objects := by
    refine List.mem_singleton.mpr ?_
    exact congrArg (fun q => ObjRow.mk "Sofa" 1 q) h2.symm
  ⟨hmem,
   detected_objects_rows [("sofa", 9/10)] ⟨none, []⟩
     (ObjRow.mk "Sofa" 1 (9/10)) hmem⟩

/-- C4: on an empty accumulated detection stream the report's environment
is "Uncategorized" with confidence 0.0, whatever the declared manifest. -/
theorem empty_detections_uncategorized (dd : DeclaredData) :
    (analyze_video_background [] dd).detected_environment = "Uncategorized"
    ∧ (analyze_video_background [] dd).environment_confidence = 0 :=
  ⟨rfl, rfl⟩

/-- C5: the mismatch list is the environment-check output followed by one
mismatch string — embedding the declared and detected values — for
exactly those manifest assets whose declared count differs from the
detected count (0 when the label was never detected), in manifest order;
every such inequality puts its string in the report and forces the risk
flag to "Review Required". -/
theorem asset_count_comparison (dets : List (String × ℚ))
    (dd : DeclaredData) :
    (analyze_video_background dets dd).mismatch_highlight
      = (envCheck (analyze_video_background dets dd).detected_environment
          dd).1
        ++ assetMismatchList (all_detected_counts dets) dd.assets
    ∧ (∀ asset declaredCount, (asset, declaredCount) ∈ dd.assets →
        declaredCount
            ≠ (((findVal (all_detected_counts dets) asset).getD 0 : Nat)
                : Int) →
        assetMismatchStr asset declaredCount
            ((findVal (all_detected_counts dets) asset).getD 0)
          ∈ (analyze_video_background dets dd).mismatch_highlight
        ∧ (analyze_video_background dets dd).risk_flag
            = "Review Required") := by
  refine ⟨analyze_mismatch_highlight dets dd, ?_⟩
  intro asset dc hmem hne
  have hin : assetMismatchStr asset dc
      ((findVal (all_detected_counts dets) asset).getD 0)
      ∈ assetMismatchList (all_detected_counts dets) dd.assets := by
    refine List.mem_filterMap.mpr ⟨(asset, dc), hmem, ?_⟩
    exact if_pos hne
  constructor
  · rw [analyze_mismatch_highlight]
    exact List.mem_append_right _ hin
  · rw [analyze_risk_flag, if_neg (List.ne_nil_of_mem hin)]

/-- C5 witness: declared refrigerator count 2 against detected count 0
(nothing detected) produces the mismatch string and the review flag. -/
theorem asset_count_comparison_witness :
    (("refrigerator", (2 : Int)) ∈ ([("refrigerator", (2 : Int))]
        : List (String × Int)))
    ∧ ((2 : Int)
        ≠ (((findVal (all_detected_counts ([] : List (String × ℚ)))
            "refrigerator").getD 0 : Nat) : Int))
    ∧ (assetMismatchStr "refrigerator" 2
        ((findVal (all_detected_counts ([] : List (String × ℚ)))
          "refrigerator").getD 0)
        ∈ (analyze_video_background []
            ⟨none, [("refrigerator", 2)]⟩).mismatch_highlight
       ∧ (analyze_video_background []
            ⟨none, [("refrigerator", 2)]⟩).risk_flag = "Review Required") :=
  ⟨by decide, by decide,
   (asset_count_comparison [] ⟨none, [("refrigerator", 2)]⟩).2
     "refrigerator" 2 (by decide) (by decide)⟩

/-- C7: the risk flag is "Pass" exactly when the mismatch list is empty,
and its only other possible value is "Review Required". -/
theorem risk_flag_iff_no_mismatch (dets : List (String × ℚ))
    (dd : DeclaredData) :
    ((analyze_video_background dets dd).risk_flag = "Pass"
      ↔ (analyze_video_background dets dd).mismatch_highlight = [])
    ∧ ((analyze_video_background dets dd).risk_flag = "Pass"
       ∨ (analyze_video_background dets dd).risk_flag
           = "Review Required") := by
  rcases envCheck_spec
      (analyze_video_background dets dd).detected_environment dd with
    h | ⟨e, he, h⟩ <;>
  rw [analyze_risk_flag, analyze_mismatch_highlight, h] <;>
  by_cases ha : assetMismatchList (all_detected_counts dets) dd.assets
      = [] <;>
  simp [ha]

/-- C10: when the declared manifest lacks the environment key or declares
the empty string, no environment mismatch is produced and the risk flag
is decided by the asset-count comparison alone. -/
theorem absent_or_empty_declared_environment (dets : List (String × ℚ))
    (dd : DeclaredData)
    (h : dd.environment = none ∨ dd.environment = some "") :
    (analyze_video_background dets dd).mismatch_highlight
      = assetMismatchList (all_detected_counts dets) dd.assets
    ∧ (analyze_video_background dets dd).risk_flag
      = (if assetMismatchList (all_detected_counts dets) dd.assets = []
         then "Pass" else "Review Required") := by
  have hec : envCheck
      (analyze_video_background dets dd).detected_environment dd
      = ([], "Pass") := by
    rcases h with h | h <;> simp [envCheck, h]
  constructor
  · rw [analyze_mismatch_highlight, hec]
    exact List.nil_append _
  · rw [analyze_risk_flag, hec]

/-- C10 witness: a manifest declaring the empty environment string and a
wrong sofa count yields only the asset mismatch, which alone sets the
review flag. -/
theorem absent_or_empty_declared_environment_witness :
    ((⟨some "", [("sofa", 2)]⟩ : DeclaredData).environment = none
      ∨ (⟨some "", [("sofa", 2)]⟩ : DeclaredData).environment = some "")
    ∧ ((analyze_video_background [] ⟨some "", [("sofa", 2)]⟩).mismatch_highlight
        = assetMismatchList (all_detected_counts []) [("sofa", 2)]
       ∧ (analyze_video_background [] ⟨some "", [("sofa", 2)]⟩).risk_flag
        = (if assetMismatchList (all_detected_counts []) [("sofa", 2)] = []
           then "Pass" else "Review Required")) :=
  ⟨Or.inr rfl,
   absent_or_empty_declared_environment [] ⟨some "", [("sofa", 2)]⟩
     (Or.inr rfl)⟩

/-- An environment mismatch string is never equal to an asset mismatch
string: the former has the letter after "Declared " where the latter has
a single quote. -/
theorem envMismatchStr_ne_assetMismatchStr (e d a : String) (dc : Int)
    (c : Nat) : envMismatchStr e d ≠ assetMismatchStr a dc c := by
  intro h
  have hd : (envMismatchStr e d).data = (assetMismatchStr a dc c).data := by
    rw [h]
  rw [envMismatchStr, assetMismatchStr] at hd
  simp only [String.data_append, List.append_assoc] at hd
  rw [show (['D', 'e', 'c', 'l', 'a', 'r', 'e', 'd', ' ', 'e', 'n', 'v',
        'i', 'r', 'o', 'n', 'm', 'e', 'n', 't', ' '] : List Char)
      = ['D', 'e', 'c', 'l', 'a', 'r', 'e', 'd', ' ']
        ++ ['e', 'n', 'v', 'i', 'r', 'o', 'n', 'm', 'e', 'n', 't', ' ']
      from rfl, List.append_assoc] at hd
  have h1 := List.append_cancel_left hd
  rw [show sq.data = [Char.ofNat 39] from rfl] at h1
  simp only [List.cons_append, List.singleton_append] at h1
  have h0 : 'e' = Char.ofNat 39 := by
    have := congrArg (fun l => l.head?) h1
    simpa using this
  exact absurd h0 (by decide)

/-- C6: with a non-empty declared environment whose case-insensitive
value differs from the detected environment, the mismatch list starts
with the single environment mismatch string, followed only by asset
mismatch strings (the environment string occurs exactly once), and the
risk flag is "Review Required" regardless of the asset comparison. -/
theorem declared_environment_mismatch (dets : List (String × ℚ))
    (dd : DeclaredData) (e : String)
    (he : dd.environment = some e) (hne : e ≠ "")
    (hdiff : strLower e
      ≠ strLower
          (analyze_video_background dets dd).detected_environment) :
    (analyze_video_background dets dd).mismatch_highlight
      = envMismatchStr e
          (analyze_video_background dets dd).detected_environment
        :: assetMismatchList (all_detected_counts dets) dd.assets
    ∧ (analyze_video_background dets dd).risk_flag = "Review Required"
    ∧ (analyze_video_background dets dd).mismatch_highlight.count
        (envMismatchStr e
          (analyze_video_background dets dd).detected_environment)
        = 1 := by
  have hec : envCheck
      (analyze_video_background dets dd).detected_environment dd
      = ([envMismatchStr e
          (analyze_video_background dets dd).detected_environment],
         "Review Required") := by
    simp [envCheck, he, hne, hdiff]
  have hmh := analyze_mismatch_highlight dets dd
  rw [hec] at hmh
  simp only [List.singleton_append] at hmh
  have hz : (assetMismatchList (all_detected_counts dets) dd.assets).count
      (envMismatchStr e
        (analyze_video_background dets dd).detected_environment) = 0 := by
    rw [List.count_eq_zero]
    intro hmem
    obtain ⟨p, hp, hfp⟩ := List.mem_filterMap.mp hmem
    obtain ⟨asset, dc⟩ := p
    by_cases hc : dc
        ≠ (((findVal (all_detected_counts dets) asset).getD 0 : Nat) : Int)
    · rw [if_pos hc] at hfp
      exact envMismatchStr_ne_assetMismatchStr e
        (analyze_video_background dets dd).detected_environment asset dc
        ((findVal (all_detected_counts dets) asset).getD 0)
        (Option.some.inj hfp).symm
    · rw [if_neg hc] at hfp
      cases hfp
  refine ⟨hmh, ?_, ?_⟩
  · rw [analyze_risk_flag, hec]
    by_cases ha : assetMismatchList (all_detected_counts dets) dd.assets
        = [] <;> simp [ha]
  · rw [hmh, List.count_cons_self, hz]

/-- C6 witness: declared "Home" against detected "Uncategorized" with one
matching-count-free asset; exactly one environment mismatch string leads
the list and the flag is set. -/
theorem declared_environment_mismatch_witness :
    ((⟨some "Home", [("sofa", 1)]⟩ : DeclaredData).environment
        = some "Home")
    ∧ ("Home" : String) ≠ ""
    ∧ strLower "Home"
        ≠ strLower (analyze_video_background []
            ⟨some "Home", [("sofa", 1)]⟩).detected_environment
    ∧ ((analyze_video_background []
          ⟨some "Home", [("sofa", 1)]⟩).mismatch_highlight
        = envMismatchStr "Home"
            (analyze_video_background []
              ⟨some "Home", [("sofa", 1)]⟩).detected_environment
          :: assetMismatchList (all_detected_counts []) [("sofa", 1)]
       ∧ (analyze_video_background []
            ⟨some "Home", [("sofa", 1)]⟩).risk_flag = "Review Required"
       ∧ (analyze_video_background []
            ⟨some "Home", [("sofa", 1)]⟩).mismatch_highlight.count
            (envMismatchStr "Home"
              (analyze_video_background []
                ⟨some "Home", [("sofa", 1)]⟩).detected_environment)
            = 1) :=
  ⟨rfl, by decide, by decide,
   declared_environment_mismatch [] ⟨some "Home", [("sofa", 1)]⟩ "Home"
     rfl (by decide) (by decide)⟩

/-- C8: counterexample — a detector predict failure on one frame is not
skipped: the frame loop aborts with the exception and the detections of
the remaining frame are never accumulated, so the scenario does not
continue with the remaining frames. -/
theorem predict_failure_aborts_scenario :
    processFrames [FrameOutcome.predictError,
        FrameOutcome.frameDetections [("sofa", 9/10)]]
      = Except.error ()
    ∧ processFrames [FrameOutcome.frameDetections [("sofa", 9/10)]]
      = Except.ok [("sofa", 9/10)]
    ∧ processFrames [FrameOutcome.predictError,
        FrameOutcome.frameDetections [("sofa", 9/10)]]
      ≠ processFrames [FrameOutcome.frameDetections [("sofa", 9/10)]] :=
  ⟨rfl, rfl, by simp [processFrames, Except.map]⟩

/-- C8 (amended): a per-frame fetch failure is non-fatal — the frame is
skipped and the loop continues with the remaining frames — but a predict
failure is not caught by the per-frame handler: it escapes the loop and
aborts the scenario. -/
theorem frame_failure_semantics (rest : List FrameOutcome) :
    processFrames (FrameOutcome.fetchError :: rest) = processFrames rest
    ∧ processFrames (FrameOutcome.predictError :: rest)
        = Except.error () :=
  ⟨rfl, rfl⟩

/-- C9: counterexample — with a usable access key, a 200 response whose
body is valid JSON but lacks the expected "results" member makes the
fetch raise an uncaught KeyError instead of returning the empty list. -/
theorem malformed_body_raises :
    fetch_image_urls_from_unsplash "unsplash-key-1"
        (HttpResponse.response 200 (BodyContent.json (JVal.jobj [])))
      = Except.error PyExc.keyError
    ∧ fetch_image_urls_from_unsplash "unsplash-key-1"
        (HttpResponse.response 200 (BodyContent.json (JVal.jobj [])))
      ≠ Except.ok [] := by
  have h1 : fetch_image_urls_from_unsplash "unsplash-key-1"
      (HttpResponse.response 200 (BodyContent.json (JVal.jobj [])))
      = Except.error PyExc.keyError := rfl
  refine ⟨h1, ?_⟩
  rw [h1]
  simp

/-- C9 (amended): with a usable access key, a transport failure, a
4xx/5xx status, and a body that is not valid JSON each yield the empty
URL list; but a valid-JSON body on which the extraction fails raises
that error uncaught; and with the shipped placeholder key the function
returns the empty list without any request. -/
theorem fetch_failure_semantics (key : String)
    (hkey : key ≠ "YOUR_UNSPLASH_ACCESS_KEY") :
    fetch_image_urls_from_unsplash key HttpResponse.failure = Except.ok []
    ∧ (∀ status body, 400 ≤ status → status < 600 →
        fetch_image_urls_from_unsplash key
            (HttpResponse.response status body)
          = Except.ok [])
    ∧ (∀ status, fetch_image_urls_from_unsplash key
          (HttpResponse.response status BodyContent.invalidJson)
        = Except.ok [])
    ∧ (∀ status v e, extractUrls v = Except.error e →
        ¬(400 ≤ status ∧ status < 600) →
        fetch_image_urls_from_unsplash key
            (HttpResponse.response status (BodyContent.json v))
          = Except.error e)
    ∧ (∀ resp, fetch_image_urls_from_unsplash "YOUR_UNSPLASH_ACCESS_KEY"
          resp
        = Except.ok []) := by
  refine ⟨?_, ?_, ?_, ?_, ?_⟩
  · simp [fetch_image_urls_from_unsplash, hkey]
  · intro status body h4 h6
    simp [fetch_image_urls_from_unsplash, hkey, h4, h6]
  · intro status
    by_cases hs : 400 ≤ status ∧ status < 600 <;>
      simp [fetch_image_urls_from_unsplash, hkey, hs]
  · intro status v e hex hs
    simp [fetch_image_urls_from_unsplash, hkey, hs, hex]
  · intro resp
    simp [fetch_image_urls_from_unsplash]

/-- C9 witness: a transport failure with a usable key yields the empty
URL list. -/
theorem fetch_failure_semantics_witness :
    (("unsplash-key-1" : String) ≠ "YOUR_UNSPLASH_ACCESS_KEY")
    ∧ fetch_image_urls_from_unsplash "unsplash-key-1" HttpResponse.failure
        = Except.ok [] :=
  ⟨by decide, (fetch_failure_semantics "unsplash-key-1" (by decide)).1⟩

end PartB
